import Mathlib

set_option maxRecDepth 8000

/-!
Verification of the AMM state & swap simulation engine
(`src/defi/amm/uniswap/{v2,v3}` and `v3/fee_math.rs`).

Modelling conventions:
* `U256` values are modelled as `Nat`.  Plain `+`, `-`, `*` on `U256`
  panic on overflow/underflow, so they are modelled as exact natural
  arithmetic on the domain where the source completes; the places where
  the source explicitly wraps (`overflowing_add`, `overflowing_sub`,
  shifts that discard high bits) are modelled with an explicit
  `% 2 ^ 256`.  `Nat` subtraction truncates at zero where the source
  would panic.
* `I256` values are modelled as `Int`; `I256::from_raw` / `into_raw`
  reinterpret two's-complement bits and are modelled explicitly.
* Ethereum addresses are 160-bit integers compared numerically; they are
  modelled as `Nat`.  Transaction hashes are opaque identifiers,
  modelled as `Nat`.
* Fallible operations return `Except`; `-> Option (...)` marks the one
  place (the V3 swap loop) where a fuel bound models the source's
  unbounded `while` loop: `none` means the loop did not finish within
  the given fuel, every `some` is a result the source's loop produces.
* The tick-math primitives (`next_initialized_tick_within_one_word`,
  `get_sqrt_ratio_at_tick`, `compute_swap_step`,
  `get_tick_at_sqrt_ratio`) live in the external `uniswap_v3_math`
  crate, outside this repository; the spec (§6) treats them as consumed
  external interfaces, so they are abstracted here as a structure of
  function parameters (`V3Prims`).
* `HashMap` state (tick bitmaps, tick infos) is modelled as a lookup
  function `Int → Option _`, the exact interface the swap loop uses.
-/

/-- ERC20 token record (`src/defi/currency/erc20.rs`). -/
structure ERC20Token where
  chain_id : Nat
  address : Nat
  symbol : String
  name : String
  decimals : Nat
  total_supply : Nat
  icon : Option (List Nat)
deriving DecidableEq, Inhabited

/-! ## Constant-product pool (`src/defi/amm/uniswap/v2/mod.rs`) -/

/-- V2 pool state: reserves as of a block. -/
structure V2State where
  reserve0 : Nat
  reserve1 : Nat
  block : Nat
deriving DecidableEq, Inhabited

/-- `UniswapV2Pool`: identity fields plus optional cached state. -/
structure UniswapV2Pool where
  chain_id : Nat
  address : Nat
  token0 : ERC20Token
  token1 : ERC20Token
  state : Option V2State
deriving DecidableEq, Inhabited

/-- Errors of the V2 model (`anyhow` messages in the source). -/
inductive V2Error where
  | stateNotInit
  | divisionByZero
  | roundingError
deriving DecidableEq

/-- `UniswapV2Pool::new`: reorders the two tokens so that
`token0.address < token1.address`; state starts absent. -/
def UniswapV2Pool.new (chain_id address : Nat) (token0 token1 : ERC20Token) :
    UniswapV2Pool :=
  if token0.address < token1.address then
    { chain_id := chain_id, address := address, token0 := token0, token1 := token1,
      state := none }
  else
    { chain_id := chain_id, address := address, token0 := token1, token1 := token0,
      state := none }

/-- `UniswapV2Pool::get_amount_out`: constant-product output with the
hard-coded 0.30% fee.  The source computes the fee factor as
`(10000 - 300 / 10) / 10 = 997` in integer arithmetic. -/
def UniswapV2Pool.get_amount_out (_self : UniswapV2Pool)
    (amount_in reserve_in reserve_out : Nat) : Nat :=
  if amount_in = 0 ∨ reserve_in = 0 ∨ reserve_out = 0 then 0
  else
    let fee := (10000 - 300 / 10) / 10
    let amount_in_with_fee := amount_in * fee
    let numerator := amount_in_with_fee * reserve_out
    let denominator := reserve_in * 1000 + amount_in_with_fee
    numerator / denominator

/-- `UniswapV2Pool::simulate_swap` (read-only quote). -/
def UniswapV2Pool.simulate_swap (self : UniswapV2Pool) (token_in amount_in : Nat) :
    Except V2Error Nat :=
  match self.state with
  | none => .error .stateNotInit
  | some state =>
    if self.token0.address = token_in then
      .ok (self.get_amount_out amount_in state.reserve0 state.reserve1)
    else
      .ok (self.get_amount_out amount_in state.reserve1 state.reserve0)

/-- `UniswapV2Pool::simulate_swap_mut`: same quote, and the held reserves
are updated (`reserve_in += amount_in`, `reserve_out -= amount_out`).
The mutated pool is returned alongside the result. -/
def UniswapV2Pool.simulate_swap_mut (self : UniswapV2Pool) (token_in amount_in : Nat) :
    Except V2Error Nat × UniswapV2Pool :=
  match self.state with
  | none => (.error .stateNotInit, self)
  | some state =>
    if self.token0.address = token_in then
      let amount_out := self.get_amount_out amount_in state.reserve0 state.reserve1
      (.ok amount_out,
        { self with state := some {
            reserve0 := state.reserve0 + amount_in,
            reserve1 := state.reserve1 - amount_out,
            block := state.block } })
    else
      let amount_out := self.get_amount_out amount_in state.reserve1 state.reserve0
      (.ok amount_out,
        { self with state := some {
            reserve0 := state.reserve0 - amount_out,
            reserve1 := state.reserve1 + amount_in,
            block := state.block } })

/-- A sequence of mutating swaps: each element is `(token_in, amount_in)`. -/
def v2SwapSeq (p : UniswapV2Pool) (swaps : List (Nat × Nat)) : UniswapV2Pool :=
  swaps.foldl (fun q ta => (q.simulate_swap_mut ta.1 ta.2).2) p

/-! ## `div_uu` (`src/defi/amm/uniswap/v2/mod.rs`, lines 246-325)

Full-precision unsigned division to Q64.64.  The numeric constants
(`U256_64`, `U256_192`, the 192-bit and 128-bit masks, ...) come from the
repository's shared constants module; their values are spelled in their
names.  The definition is split into named pieces mirroring the source's
local variables so that the control flow can be stated. -/

/-- The unrolled most-significant-bit search over `x >> 192`
(the `msb` variable of `div_uu`). -/
def divuuMsb (x : Nat) : Nat :=
  let xc0 := x >>> 192
  let s1 := if 0x100000000 ≤ xc0 then (xc0 >>> 32, 192 + 32) else (xc0, 192)
  let s2 := if 0x10000 ≤ s1.1 then (s1.1 >>> 16, s1.2 + 16) else s1
  let s3 := if 0x100 ≤ s2.1 then (s2.1 >>> 8, s2.2 + 8) else s2
  let s4 := if 16 ≤ s3.1 then (s3.1 >>> 4, s3.2 + 4) else s3
  let s5 := if 4 ≤ s4.1 then (s4.1 >>> 2, s4.2 + 2) else s4
  if 2 ≤ s5.1 then s5.2 + 1 else s5.2

/-- The provisional `answer` of `div_uu` before the correction step:
direct division when `x` fits in 192 bits, otherwise the msb-normalised
estimate.  Shifts discard bits above 2^256 as `U256` shifts do. -/
def divuuAnswer0 (x y : Nat) : Nat :=
  if x ≤ 2 ^ 192 - 1 then ((x <<< 64) % 2 ^ 256) / y
  else
    let msb := divuuMsb x
    ((x <<< (255 - msb)) % 2 ^ 256) / (((y - 1) >>> (msb - 191)) + 1)

/-- `hi = answer * (y >> 128)`. -/
def divuuHi (x y : Nat) : Nat := divuuAnswer0 x y * (y >>> 128)

/-- First value of `lo`: `answer * (y & ((1 << 128) - 1))`. -/
def divuuLo0 (x y : Nat) : Nat := divuuAnswer0 x y * (y % 2 ^ 128)

/-- `xl = x << 64` (wrapping, the top 192 bits of `x` are discarded). -/
def divuuXl0 (x : Nat) : Nat := (x <<< 64) % 2 ^ 256

/-- `xh` after the first conditional borrow (`if xl < lo { xh -= 1 }`). -/
def divuuXh1 (x y : Nat) : Nat :=
  if divuuXl0 x < divuuLo0 x y then (x >>> 192) - 1 else x >>> 192

/-- `xl` after the first `overflowing_sub`. -/
def divuuXl1 (x y : Nat) : Nat := (divuuXl0 x + 2 ^ 256 - divuuLo0 x y) % 2 ^ 256

/-- Second value of `lo`: `hi << 128` (wrapping). -/
def divuuLo1 (x y : Nat) : Nat := (divuuHi x y <<< 128) % 2 ^ 256

/-- `xh` after the second conditional borrow. -/
def divuuXh2 (x y : Nat) : Nat :=
  if divuuXl1 x y < divuuLo1 x y then divuuXh1 x y - 1 else divuuXh1 x y

/-- `xl` after the second `overflowing_sub`. -/
def divuuXl2 (x y : Nat) : Nat := (divuuXl1 x y + 2 ^ 256 - divuuLo1 x y) % 2 ^ 256

/-- `div_uu(x, y)`: `(x << 64) / y` as a Q64.64 value.  Fails with
`divisionByZero` when `y == 0`; saturates to `Ok 0` when the computed
answer exceeds 128 bits (checked both before and after the correction
step); fails with `roundingError` when the hi/lo cross-multiplication
check disagrees with the expected high component. -/
def div_uu (x y : Nat) : Except V2Error Nat :=
  if y ≠ 0 then
    if 2 ^ 128 - 1 < divuuAnswer0 x y then .ok 0
    else if divuuXh2 x y ≠ divuuHi x y >>> 128 then .error .roundingError
    else if 2 ^ 128 - 1 < divuuAnswer0 x y + divuuXl2 x y / y then .ok 0
    else .ok (divuuAnswer0 x y + divuuXl2 x y / y)
  else .error .divisionByZero

/-! ## Concentrated-liquidity pool (`src/defi/amm/uniswap/v3/mod.rs`) -/

/-- Per-tick data held in the sparse tick map. -/
structure TickInfo where
  liquidity_gross : Nat
  liquidity_net : Int
  initialized : Bool
deriving DecidableEq, Inhabited

/-- Single-entry tick snapshot kept beside the maps. -/
structure PoolTick where
  tick : Int
  liquidity_net : Int
  block : Nat
deriving DecidableEq, Inhabited

/-- V3 pool state.  The two `HashMap`s are modelled by their lookup
functions (`get`): word index to bitmap word, tick index to `TickInfo`. -/
structure V3State where
  liquidity : Nat
  sqrt_price : Nat
  tick : Int
  tick_spacing : Int
  tick_bitmap : Int → Option Nat
  ticks : Int → Option TickInfo
  pool_tick : PoolTick
deriving Inhabited

/-- `UniswapV3Pool`: identity fields, fee tier, optional cached state. -/
structure UniswapV3Pool where
  chain_id : Nat
  address : Nat
  fee : Nat
  token0 : ERC20Token
  token1 : ERC20Token
  state : Option V3State
deriving Inhabited

/-- `UniswapV3Pool::new`: reorders the two tokens so that
`token0.address < token1.address`; state starts absent. -/
def UniswapV3Pool.new (chain_id address fee : Nat) (token0 token1 : ERC20Token) :
    UniswapV3Pool :=
  if token0.address < token1.address then
    { chain_id := chain_id, address := address, fee := fee, token0 := token0,
      token1 := token1, state := none }
  else
    { chain_id := chain_id, address := address, fee := fee, token0 := token1,
      token1 := token0, state := none }

/-- Errors of the V3 swap loop.  `externalFailure` stands for any error
propagated out of the external tick-math primitives. -/
inductive V3Error where
  | stateNotInit
  | liquidityUnderflow
  | externalFailure
deriving DecidableEq

/-- The mutable loop state (`CurrentState` in the source). -/
structure CurrentState where
  amount_specified_remaining : Int
  amount_calculated : Int
  sqrt_price_x_96 : Nat
  tick : Int
  liquidity : Nat
deriving DecidableEq, Inhabited

/-- The external `uniswap_v3_math` primitives the loop consumes (spec §6):
tick-bitmap search, tick → sqrt-price, the constant-liquidity swap step,
and sqrt-price → tick. -/
structure V3Prims where
  next_initialized_tick_within_one_word :
    (Int → Option Nat) → Int → Int → Bool → Except V3Error (Int × Bool)
  get_sqrt_ratio_at_tick : Int → Except V3Error Nat
  compute_swap_step :
    Nat → Nat → Nat → Int → Nat → Except V3Error (Nat × Nat × Nat × Nat)
  get_tick_at_sqrt_ratio : Nat → Except V3Error Int

/-- `MIN_TICK` of the tick-math library. -/
def minTick : Int := -887272

/-- `MAX_TICK` of the tick-math library. -/
def maxTick : Int := 887272

/-- `MIN_SQRT_RATIO` of the tick-math library. -/
def minSqrtRatio : Nat := 4295128739

/-- `MAX_SQRT_RATIO` of the tick-math library. -/
def maxSqrtRatio : Nat := 1461446703485210103287273052203988822378723970342

/-- `I256::from_raw`: reinterpret a `U256` bit pattern as a signed value. -/
def i256_from_raw (n : Nat) : Int :=
  if n < 2 ^ 255 then (n : Int) else (n : Int) - 2 ^ 256

/-- `I256::into_raw`: the two's-complement `U256` bit pattern of a value. -/
def i256_into_raw (i : Int) : Nat := (i % 2 ^ 256).toNat

/-- Wrap an integer into the `I256` range (used for `overflowing_sub`). -/
def i256_wrap (i : Int) : Int := i256_from_raw (i256_into_raw i)

/-- The `liquidity_net` read in the crossing branch: the tick map's entry,
or `0` when the tick is absent (partial-state approximation). -/
def tickNetOf (ticks : Int → Option TickInfo) (t : Int) : Int :=
  match ticks t with
  | some info => info.liquidity_net
  | none => 0

/-- One iteration of the V3 swap loop.  This is the loop body shared
verbatim by `simulate_swap` (lines 241-342) and `simulate_swap_mut`
(lines 381-482): bitmap search for the next tick, clamp to the absolute
tick range, tick → sqrt-price, bounded target, constant-liquidity swap
step, amount bookkeeping, then either a full tick crossing (liquidity
change from `liquidity_net`, failing with `liquidityUnderflow` if the
subtraction would go negative, and the tick advance) or the
recomputation of the tick from the new sqrt-price. -/
def v3Step (P : V3Prims) (fee : Nat) (tick_bitmap : Int → Option Nat)
    (tick_spacing : Int) (ticks : Int → Option TickInfo) (zero_for_one : Bool)
    (sqrt_price_limit : Nat) (cs : CurrentState) : Except V3Error CurrentState :=
  match P.next_initialized_tick_within_one_word tick_bitmap cs.tick
      tick_spacing zero_for_one with
  | .error e => .error e
  | .ok tb =>
    let tick_next := max minTick (min maxTick tb.1)
    match P.get_sqrt_ratio_at_tick tick_next with
    | .error e => .error e
    | .ok sqrt_price_next =>
      let target :=
        if zero_for_one then
          if sqrt_price_next < sqrt_price_limit then sqrt_price_limit
          else sqrt_price_next
        else
          if sqrt_price_limit < sqrt_price_next then sqrt_price_limit
          else sqrt_price_next
      match P.compute_swap_step cs.sqrt_price_x_96 target cs.liquidity
          cs.amount_specified_remaining fee with
      | .error e => .error e
      | .ok step =>
        let remaining := i256_wrap (cs.amount_specified_remaining -
          i256_from_raw ((step.2.1 + step.2.2.2) % 2 ^ 256))
        let calculated := cs.amount_calculated - i256_from_raw step.2.2.1
        if step.1 = sqrt_price_next then
          let crossed : Nat → CurrentState := fun liq =>
            { amount_specified_remaining := remaining, amount_calculated := calculated,
              sqrt_price_x_96 := step.1,
              tick := if zero_for_one then tick_next - 1 else tick_next,
              liquidity := liq }
          if tb.2 then
            let net0 := tickNetOf ticks tick_next
            let net := if zero_for_one then -net0 else net0
            if net < 0 then
              if cs.liquidity < (-net).toNat then .error .liquidityUnderflow
              else .ok (crossed (cs.liquidity - (-net).toNat))
            else .ok (crossed (cs.liquidity + net.toNat))
          else .ok (crossed cs.liquidity)
        else if step.1 ≠ cs.sqrt_price_x_96 then
          match P.get_tick_at_sqrt_ratio step.1 with
          | .error e => .error e
          | .ok t =>
            .ok { amount_specified_remaining := remaining,
                  amount_calculated := calculated,
                  sqrt_price_x_96 := step.1, tick := t, liquidity := cs.liquidity }
        else
          .ok { amount_specified_remaining := remaining,
                amount_calculated := calculated,
                sqrt_price_x_96 := step.1, tick := cs.tick, liquidity := cs.liquidity }

/-- The V3 swap loop: iterate `v3Step` while
`amount_specified_remaining != 0 && sqrt_price != sqrt_price_limit`.
`fuel` bounds the number of iterations; `none` = not finished in `fuel`
steps (the source's loop is unbounded). -/
def v3SwapLoop (P : V3Prims) (fee : Nat) (tick_bitmap : Int → Option Nat)
    (tick_spacing : Int) (ticks : Int → Option TickInfo) (zero_for_one : Bool)
    (sqrt_price_limit : Nat) :
    Nat → CurrentState → Option (Except V3Error CurrentState)
  | 0, cs =>
    if cs.amount_specified_remaining = 0 ∨ cs.sqrt_price_x_96 = sqrt_price_limit then
      some (.ok cs)
    else none
  | fuel + 1, cs =>
    if cs.amount_specified_remaining = 0 ∨ cs.sqrt_price_x_96 = sqrt_price_limit then
      some (.ok cs)
    else
      match v3Step P fee tick_bitmap tick_spacing ticks zero_for_one
          sqrt_price_limit cs with
      | .error e => some (.error e)
      | .ok cs2 =>
        v3SwapLoop P fee tick_bitmap tick_spacing ticks zero_for_one
          sqrt_price_limit fuel cs2

/-- Body of `UniswapV3Pool::simulate_swap` after the direction flag
`zero_for_one = (token_in == token0.address)` has been computed (the
flag is the only use of `token_in`). -/
def UniswapV3Pool.swapCore (P : V3Prims) (self : UniswapV3Pool)
    (zero_for_one : Bool) (amount_in fuel : Nat) : Option (Except V3Error Nat) :=
  match self.state with
  | none => some (.error .stateNotInit)
  | some state =>
    if amount_in = 0 then some (.ok 0)
    else
      let sqrt_price_limit := if zero_for_one then minSqrtRatio + 1 else maxSqrtRatio - 1
      let cs0 : CurrentState :=
        { sqrt_price_x_96 := state.sqrt_price, amount_calculated := 0,
          amount_specified_remaining := i256_from_raw amount_in,
          tick := state.tick, liquidity := state.liquidity }
      match v3SwapLoop P self.fee state.tick_bitmap state.tick_spacing state.ticks
          zero_for_one sqrt_price_limit fuel cs0 with
      | none => none
      | some (.error e) => some (.error e)
      | some (.ok cs) => some (.ok (i256_into_raw (-cs.amount_calculated)))

/-- `UniswapV3Pool::simulate_swap` (read-only quote). -/
def UniswapV3Pool.simulate_swap (P : V3Prims) (self : UniswapV3Pool)
    (token_in amount_in fuel : Nat) : Option (Except V3Error Nat) :=
  UniswapV3Pool.swapCore P self (decide (token_in = self.token0.address)) amount_in fuel

/-- Body of `UniswapV3Pool::simulate_swap_mut` after the direction flag;
identical loop, but on completion the final `liquidity`, `sqrt_price`
and `tick` are written back into the pool's cached state.  The resulting
pool is returned alongside the result. -/
def UniswapV3Pool.swapMutCore (P : V3Prims) (self : UniswapV3Pool)
    (zero_for_one : Bool) (amount_in fuel : Nat) :
    Option (Except V3Error Nat × UniswapV3Pool) :=
  match self.state with
  | none => some (.error .stateNotInit, self)
  | some state =>
    if amount_in = 0 then some (.ok 0, self)
    else
      let sqrt_price_limit := if zero_for_one then minSqrtRatio + 1 else maxSqrtRatio - 1
      let cs0 : CurrentState :=
        { sqrt_price_x_96 := state.sqrt_price, amount_calculated := 0,
          amount_specified_remaining := i256_from_raw amount_in,
          tick := state.tick, liquidity := state.liquidity }
      match v3SwapLoop P self.fee state.tick_bitmap state.tick_spacing state.ticks
          zero_for_one sqrt_price_limit fuel cs0 with
      | none => none
      | some (.error e) => some (.error e, self)
      | some (.ok cs) =>
        let state2 := { state with liquidity := cs.liquidity,
                                   sqrt_price := cs.sqrt_price_x_96, tick := cs.tick }
        some (.ok (i256_into_raw (-cs.amount_calculated)),
          { self with state := some state2 })

/-- `UniswapV3Pool::simulate_swap_mut`. -/
def UniswapV3Pool.simulate_swap_mut (P : V3Prims) (self : UniswapV3Pool)
    (token_in amount_in fuel : Nat) : Option (Except V3Error Nat × UniswapV3Pool) :=
  UniswapV3Pool.swapMutCore P self (decide (token_in = self.token0.address))
    amount_in fuel

/-! ## Swap-log decoding and volume aggregation -/

/-- An on-chain log as the engine consumes it (`alloy` `Log`): emitting
address, optional block number and transaction hash, and the decoded
`Swap` event body `(amount0, amount1)` (`none` = `log_decode` fails). -/
structure EthLog where
  address : Nat
  block_number : Option Nat
  transaction_hash : Option Nat
  decoded : Option (Int × Int)
deriving DecidableEq, Inhabited

/-- A decoded swap record (`SwapData` in `src/utils/logs/events.rs`). -/
structure SwapData where
  account : Option Nat
  token_in : ERC20Token
  token_out : ERC20Token
  amount_in : Nat
  amount_out : Nat
  block : Nat
  tx_hash : Nat
deriving DecidableEq, Inhabited

/-- Errors of `decode_swap`.  `negAmountParse` models the failing
`U256::from_str` on a negative `amount_in`. -/
inductive DecodeError where
  | decodeFailure
  | addressMismatch
  | missingBlockNumber
  | missingTxHash
  | negAmountParse
deriving DecidableEq

/-- Aggregated pool volume (`PoolVolume`). -/
structure PoolVolume where
  buy_volume : Nat
  sell_volume : Nat
  swaps : List SwapData
deriving DecidableEq, Inhabited

/-- `UniswapV3Pool::decode_swap`: the positive delta names
`token_in`/`amount_in`, the negative delta names `token_out`/`amount_out`
(magnitude); fails on decode failure, address mismatch, missing block
number or transaction hash, and on a negative `amount_in` (the
`U256::from_str` parse). -/
def UniswapV3Pool.decode_swap (self : UniswapV3Pool) (log : EthLog) :
    Except DecodeError SwapData :=
  match log.decoded with
  | none => .error .decodeFailure
  | some am =>
    if log.address ≠ self.address then .error .addressMismatch
    else
      let inPair := if 0 < am.1 then (am.1, self.token0) else (am.2, self.token1)
      let outPair := if am.2 < 0 then (am.2, self.token1) else (am.1, self.token0)
      match log.block_number with
      | none => .error .missingBlockNumber
      | some blk =>
        match log.transaction_hash with
        | none => .error .missingTxHash
        | some h =>
          if inPair.1 < 0 then .error .negAmountParse
          else
            .ok { account := none, token_in := inPair.2, token_out := outPair.2,
                  amount_in := inPair.1.toNat, amount_out := outPair.1.natAbs,
                  block := blk, tx_hash := h }

/-- The accumulation loop of `get_volume_from_logs`: decode each log
(propagating its error), add `amount_in` to the buy volume when
`token_in == token1`, add `amount_out` to the sell volume when
`token_out == token0`, and collect the records in input order. -/
def UniswapV3Pool.get_volume_aux (self : UniswapV3Pool) :
    List EthLog → Nat → Nat → List SwapData →
    Except DecodeError (Nat × Nat × List SwapData)
  | [], buy, sell, acc => .ok (buy, sell, acc)
  | log :: rest, buy, sell, acc =>
    match self.decode_swap log with
    | .error e => .error e
    | .ok sd =>
      UniswapV3Pool.get_volume_aux self rest
        (if sd.token_in.address = self.token1.address then buy + sd.amount_in else buy)
        (if sd.token_out.address = self.token0.address then sell + sd.amount_out else sell)
        (acc ++ [sd])

/-- `UniswapV3Pool::get_volume_from_logs`: accumulate, then sort the
records ascending by block number (the source's stable
`sort_by(block)`, modelled by a stable insertion sort). -/
def UniswapV3Pool.get_volume_from_logs (self : UniswapV3Pool) (logs : List EthLog) :
    Except DecodeError PoolVolume :=
  match UniswapV3Pool.get_volume_aux self logs 0 0 [] with
  | .error e => .error e
  | .ok r =>
    .ok { buy_volume := r.1, sell_volume := r.2.1,
          swaps := r.2.2.insertionSort (fun a b => a.block ≤ b.block) }

/-- Specification-side helper: decode a whole list, propagating the
first error (the per-element behaviour `get_volume_from_logs` folds). -/
def decodeList (self : UniswapV3Pool) : List EthLog → Except DecodeError (List SwapData)
  | [] => .ok []
  | log :: rest =>
    match self.decode_swap log with
    | .error e => .error e
    | .ok sd =>
      match decodeList self rest with
      | .error e => .error e
      | .ok sds => .ok (sd :: sds)

/-- Specification-side helper: a record's contribution to the buy volume. -/
def buyContribution (self : UniswapV3Pool) (sd : SwapData) : Nat :=
  if sd.token_in.address = self.token1.address then sd.amount_in else 0

/-- Specification-side helper: a record's contribution to the sell volume. -/
def sellContribution (self : UniswapV3Pool) (sd : SwapData) : Nat :=
  if sd.token_out.address = self.token0.address then sd.amount_out else 0

/-! ## Fee math (`src/defi/amm/uniswap/v3/fee_math.rs`)

`BigDecimal` arithmetic is exact decimal arithmetic; it is modelled as
`ℚ`.  The floating literals `0.01/100.0` etc. are modelled as the exact
rationals they denote; `volume_usd : f64` becomes a `ℚ` parameter.
Panics (invalid fee tier, `BigDecimal` division by zero) are `none`. -/

/-- The fee-tier match of `estimate_fees_usd`:
`{100 → 0.0001, 500 → 0.0005, 3000 → 0.003, 10000 → 0.01}`, any other
tier is a panic (`none`). -/
def fee_tier_rate (fee : Nat) : Option ℚ :=
  if fee = 100 then some (1 / 10000)
  else if fee = 500 then some (5 / 10000)
  else if fee = 3000 then some (3 / 1000)
  else if fee = 10000 then some (1 / 100)
  else none

/-- `estimate_fees_usd(liquidity_delta, liquidity, volume_usd, fee)`:
`fee_percentage * (volume_usd * liquidity_delta / (liquidity + liquidity_delta))`. -/
def estimate_fees_usd (liquidity_delta liquidity : Nat) (volume_usd : ℚ)
    (fee : Nat) : Option ℚ :=
  match fee_tier_rate fee with
  | none => none
  | some fee_percentage =>
    if liquidity + liquidity_delta = 0 then none
    else
      let liquidity_percentage : ℚ :=
        (liquidity_delta : ℚ) / ((liquidity : ℚ) + (liquidity_delta : ℚ))
      some (fee_percentage * (volume_usd * liquidity_percentage))

/-! ## Concrete values used by the witness theorems -/

/-- A sample token with the smaller address. -/
def tokA : ERC20Token :=
  { chain_id := 1, address := 10, symbol := "AAA", name := "TokenA", decimals := 18,
    total_supply := 0, icon := none }

/-- A sample token with the larger address. -/
def tokB : ERC20Token :=
  { chain_id := 1, address := 20, symbol := "BBB", name := "TokenB", decimals := 6,
    total_supply := 0, icon := none }

/-- A V2 pool with initialized state. -/
def poolW2 : UniswapV2Pool :=
  { chain_id := 1, address := 5, token0 := tokA, token1 := tokB,
    state := some { reserve0 := 1000, reserve1 := 2000, block := 7 } }

/-- A sample tick map with one entry at tick `-60`. -/
def ticksW : Int → Option TickInfo := fun t =>
  if t = -60 then
    some { liquidity_gross := 1, liquidity_net := 3, initialized := true }
  else none

/-- A sample bitmap map. -/
def bitmapW : Int → Option Nat := fun _ => some 1

/-- A V3 state around tick 0. -/
def stateW3 : V3State :=
  { liquidity := 10, sqrt_price := 100, tick := 0, tick_spacing := 60,
    tick_bitmap := bitmapW, ticks := ticksW,
    pool_tick := { tick := 0, liquidity_net := 3, block := 7 } }

/-- A V3 pool with initialized state. -/
def poolW3 : UniswapV3Pool :=
  { chain_id := 1, address := 99, fee := 3000, token0 := tokA, token1 := tokB,
    state := some stateW3 }

/-- Sample primitives: the next tick is `-60` and reported initialized, the
swap step lands exactly on its sqrt-price `50`. -/
def primsW : V3Prims :=
  { next_initialized_tick_within_one_word := fun _ _ _ _ => .ok (-60, true),
    get_sqrt_ratio_at_tick := fun _ => .ok 50,
    compute_swap_step := fun _ _ _ _ _ => .ok (50, 1, 2, 0),
    get_tick_at_sqrt_ratio := fun _ => .ok 0 }

/-- Sample primitives whose bitmap search fails. -/
def primsErr : V3Prims :=
  { next_initialized_tick_within_one_word := fun _ _ _ _ => .error .externalFailure,
    get_sqrt_ratio_at_tick := fun _ => .error .externalFailure,
    compute_swap_step := fun _ _ _ _ _ => .error .externalFailure,
    get_tick_at_sqrt_ratio := fun _ => .error .externalFailure }

/-- A loop state about to cross tick `-60`. -/
def csW : CurrentState :=
  { amount_specified_remaining := 5, amount_calculated := 0, sqrt_price_x_96 := 100,
    tick := 0, liquidity := 10 }

/-- A log decoding to a token1-in / token0-out swap at block 10. -/
def lgA : EthLog :=
  { address := 99, block_number := some 10, transaction_hash := some 1,
    decoded := some (-7, 5) }

/-- A log decoding to a token1-in / token0-out swap at block 5. -/
def lgB : EthLog :=
  { address := 99, block_number := some 5, transaction_hash := some 2,
    decoded := some (-3, 2) }

/-- The volume report for `[lgA, lgB]` on `poolW3`. -/
def pvW : PoolVolume :=
  { buy_volume := 7, sell_volume := 10,
    swaps := [{ account := none, token_in := tokB, token_out := tokA, amount_in := 2,
                amount_out := 3, block := 5, tx_hash := 2 },
              { account := none, token_in := tokB, token_out := tokA, amount_in := 5,
                amount_out := 7, block := 10, tx_hash := 1 }] }

/-! ## Shared helper lemmas -/

/-- With all inputs positive, the constant-product output is strictly
below the output reserve. -/
lemma get_amount_out_lt (p : UniswapV2Pool) {a ri ro : Nat}
    (ha : 0 < a) (hri : 0 < ri) (hro : 0 < ro) :
    p.get_amount_out a ri ro < ro := by
  unfold UniswapV2Pool.get_amount_out
  rw [if_neg (by push_neg; exact ⟨ha.ne', hri.ne', hro.ne'⟩)]
  show a * 997 * ro / (ri * 1000 + a * 997) < ro
  rw [Nat.div_lt_iff_lt_mul (by positivity)]
  have h0 : 0 < ro * (ri * 1000) := by positivity
  nlinarith

/-- A zero input amount always quotes zero. -/
lemma get_amount_out_zero (p : UniswapV2Pool) (ri ro : Nat) :
    p.get_amount_out 0 ri ro = 0 := by
  unfold UniswapV2Pool.get_amount_out
  rw [if_pos (Or.inl rfl)]

/-- The constant-product output never exceeds the output reserve. -/
lemma get_amount_out_le (p : UniswapV2Pool) (a ri ro : Nat) :
    p.get_amount_out a ri ro ≤ ro := by
  by_cases h : a = 0 ∨ ri = 0 ∨ ro = 0
  · unfold UniswapV2Pool.get_amount_out
    rw [if_pos h]
    exact Nat.zero_le _
  · push_neg at h
    exact (get_amount_out_lt p (Nat.pos_of_ne_zero h.1) (Nat.pos_of_ne_zero h.2.1)
      (Nat.pos_of_ne_zero h.2.2)).le

/-! ## Claim theorems -/

/-- C2: for every V2 pool with initialized state, `simulate_swap` computes
`floor(amount_in * 997 * reserve_out / (reserve_in * 1000 + amount_in * 997))`
with `(reserve_in, reserve_out) = (reserve0, reserve1)` when `token_in`
equals `token0`'s address and `(reserve1, reserve0)` otherwise, and it
returns 0 whenever `amount_in`, `reserve_in` or `reserve_out` is zero. -/
theorem v2_simulate_swap_formula (p : UniswapV2Pool) (s : V2State) (t a : Nat)
    (hs : p.state = some s) :
    (t = p.token0.address →
      UniswapV2Pool.simulate_swap p t a =
        .ok (if a = 0 ∨ s.reserve0 = 0 ∨ s.reserve1 = 0 then 0
             else a * 997 * s.reserve1 / (s.reserve0 * 1000 + a * 997))) ∧
    (t ≠ p.token0.address →
      UniswapV2Pool.simulate_swap p t a =
        .ok (if a = 0 ∨ s.reserve1 = 0 ∨ s.reserve0 = 0 then 0
             else a * 997 * s.reserve0 / (s.reserve1 * 1000 + a * 997))) := by
  constructor
  · intro ht
    subst ht
    simp only [UniswapV2Pool.simulate_swap, hs]
    rw [if_pos trivial]
    unfold UniswapV2Pool.get_amount_out
    rfl
  · intro ht
    simp only [UniswapV2Pool.simulate_swap, hs]
    rw [if_neg (fun h => ht h.symm)]
    unfold UniswapV2Pool.get_amount_out
    rfl

/-- C2 witness: concrete evaluation on `poolW2`. -/
theorem v2_simulate_swap_formula_witness :
    UniswapV2Pool.simulate_swap poolW2 10 100 =
      .ok (100 * 997 * 2000 / (1000 * 1000 + 100 * 997)) := by
  have h := v2_simulate_swap_formula poolW2
    { reserve0 := 1000, reserve1 := 2000, block := 7 } 10 100 (by rfl)
  have h1 := h.1 (by rfl)
  rw [h1]
  norm_num

/-- C3: with positive `reserve_in`, `reserve_out` and `amount_in` the quoted
output is strictly below `reserve_out`; consequently, at every pool reached
by any sequence of mutating swaps, the output amount of a further swap (in
either direction) never exceeds the out-reserve, so the
`reserve -= amount_out` subtraction in `simulate_swap_mut` never underflows
and no stored reserve is ever driven negative. -/
theorem v2_constant_product_invariant :
    (∀ (p : UniswapV2Pool) (a ri ro : Nat), 0 < a → 0 < ri → 0 < ro →
      UniswapV2Pool.get_amount_out p a ri ro < ro) ∧
    (∀ (p : UniswapV2Pool) (l : List (Nat × Nat)) (a : Nat) (s : V2State),
      (v2SwapSeq p l).state = some s →
      UniswapV2Pool.get_amount_out (v2SwapSeq p l) a s.reserve0 s.reserve1 ≤
        s.reserve1 ∧
      UniswapV2Pool.get_amount_out (v2SwapSeq p l) a s.reserve1 s.reserve0 ≤
        s.reserve0) := by
  refine ⟨fun p a ri ro ha hri hro => get_amount_out_lt p ha hri hro,
    fun p l a s _ => ⟨get_amount_out_le _ a _ _, get_amount_out_le _ a _ _⟩⟩

/-- C3 witness: concrete strict bound and a concrete two-swap sequence. -/
theorem v2_constant_product_invariant_witness :
    UniswapV2Pool.get_amount_out poolW2 100 1000 2000 < 2000 ∧
    UniswapV2Pool.get_amount_out (v2SwapSeq poolW2 [(10, 100), (20, 50)]) 3
      1071 1869 ≤ 1869 := by
  constructor
  · exact v2_constant_product_invariant.1 poolW2 100 1000 2000 (by norm_num)
      (by norm_num) (by norm_num)
  · exact (v2_constant_product_invariant.2 poolW2 [(10, 100), (20, 50)] 3
      { reserve0 := 1071, reserve1 := 1869, block := 7 } (by decide)).1

/-- C8: for tokens with distinct addresses, constructing a V2 or V3 pool
with the arguments in either order yields the same pool value, and the
stored `token0.address` is strictly below `token1.address`. -/
theorem pool_new_token_order (c a f : Nat) (t0 t1 : ERC20Token)
    (h : t0.address ≠ t1.address) :
    (UniswapV2Pool.new c a t0 t1 = UniswapV2Pool.new c a t1 t0 ∧
      (UniswapV2Pool.new c a t0 t1).token0.address <
        (UniswapV2Pool.new c a t0 t1).token1.address) ∧
    (UniswapV3Pool.new c a f t0 t1 = UniswapV3Pool.new c a f t1 t0 ∧
      (UniswapV3Pool.new c a f t0 t1).token0.address <
        (UniswapV3Pool.new c a f t0 t1).token1.address) := by
  rcases Nat.lt_or_ge t0.address t1.address with hlt | hge
  · have h2 : ¬ t1.address < t0.address := by omega
    simp [UniswapV2Pool.new, UniswapV3Pool.new, hlt, h2]
  · have hlt : t1.address < t0.address := by omega
    have h2 : ¬ t0.address < t1.address := by omega
    simp [UniswapV2Pool.new, UniswapV3Pool.new, hlt, h2]

/-- C8 witness: concrete tokens in both orders. -/
theorem pool_new_token_order_witness :
    UniswapV2Pool.new 1 5 tokA tokB = UniswapV2Pool.new 1 5 tokB tokA ∧
    (UniswapV2Pool.new 1 5 tokA tokB).token0.address <
      (UniswapV2Pool.new 1 5 tokA tokB).token1.address ∧
    UniswapV3Pool.new 1 5 3000 tokA tokB = UniswapV3Pool.new 1 5 3000 tokB tokA := by
  have h := pool_new_token_order 1 5 3000 tokA tokB (by decide)
  exact ⟨h.1.1, h.1.2, h.2.1⟩

/-- C5: with `amount_in = 0`, the read-only quote and the mutating swap of
both pool models return 0 and leave the cached state unchanged. -/
theorem zero_amount_idempotence :
    (∀ (p : UniswapV2Pool) (s : V2State) (t : Nat), p.state = some s →
      UniswapV2Pool.simulate_swap p t 0 = .ok 0 ∧
      UniswapV2Pool.simulate_swap_mut p t 0 = (.ok 0, p)) ∧
    (∀ (P : V3Prims) (p : UniswapV3Pool) (s : V3State) (t fuel : Nat),
      p.state = some s →
      UniswapV3Pool.simulate_swap P p t 0 fuel = some (.ok 0) ∧
      UniswapV3Pool.simulate_swap_mut P p t 0 fuel = some (.ok 0, p)) := by
  constructor
  · intro p s t hs
    obtain ⟨ci, ad, tk0, tk1, st⟩ := p
    obtain ⟨r0, r1, blk⟩ := s
    simp only at hs
    subst hs
    constructor
    · simp only [UniswapV2Pool.simulate_swap]
      split <;> rw [get_amount_out_zero]
    · simp only [UniswapV2Pool.simulate_swap_mut]
      split <;> simp [get_amount_out_zero]
  · intro P p s t fuel hs
    constructor
    · simp [UniswapV3Pool.simulate_swap, UniswapV3Pool.swapCore, hs]
    · simp [UniswapV3Pool.simulate_swap_mut, UniswapV3Pool.swapMutCore, hs]

/-- C5 witness: concrete zero-amount swaps on both pools. -/
theorem zero_amount_idempotence_witness :
    UniswapV2Pool.simulate_swap poolW2 10 0 = .ok 0 ∧
    UniswapV2Pool.simulate_swap_mut poolW2 10 0 = (.ok 0, poolW2) ∧
    UniswapV3Pool.simulate_swap primsW poolW3 10 0 3 = some (.ok 0) ∧
    UniswapV3Pool.simulate_swap_mut primsW poolW3 10 0 3 = some (.ok 0, poolW3) := by
  have h2 := zero_amount_idempotence.1 poolW2
    { reserve0 := 1000, reserve1 := 2000, block := 7 } 10 (by rfl)
  have h3 := zero_amount_idempotence.2 primsW poolW3 stateW3 10 3 (by rfl)
  exact ⟨h2.1, h2.2, h3.1, h3.2⟩

/-- C10: neither pool model validates `token_in`: any address other than
`token0.address` (including one matching neither token) is treated as a
token1-for-token0 swap.  The V2 quote uses `reserve1` as the input
reserve and returns an output amount; the V3 swap runs with
`zero_for_one = false`. -/
theorem token_in_not_validated :
    (∀ (p : UniswapV2Pool) (s : V2State) (t a : Nat), p.state = some s →
      t ≠ p.token0.address →
      UniswapV2Pool.simulate_swap p t a =
        .ok (UniswapV2Pool.get_amount_out p a s.reserve1 s.reserve0) ∧
      (UniswapV2Pool.simulate_swap_mut p t a).1 =
        .ok (UniswapV2Pool.get_amount_out p a s.reserve1 s.reserve0)) ∧
    (∀ (P : V3Prims) (p : UniswapV3Pool) (t a fuel : Nat), t ≠ p.token0.address →
      UniswapV3Pool.simulate_swap P p t a fuel =
        UniswapV3Pool.swapCore P p false a fuel ∧
      UniswapV3Pool.simulate_swap_mut P p t a fuel =
        UniswapV3Pool.swapMutCore P p false a fuel) := by
  constructor
  · intro p s t a hs ht
    constructor
    · simp only [UniswapV2Pool.simulate_swap, hs]
      rw [if_neg (fun h => ht h.symm)]
    · simp only [UniswapV2Pool.simulate_swap_mut, hs]
      rw [if_neg (fun h => ht h.symm)]
  · intro P p t a fuel ht
    unfold UniswapV3Pool.simulate_swap UniswapV3Pool.simulate_swap_mut
    rw [decide_eq_false ht]
    exact ⟨rfl, rfl⟩

/-- C10 witness: an address matching neither pool token. -/
theorem token_in_not_validated_witness :
    UniswapV2Pool.simulate_swap poolW2 777 100 =
      .ok (UniswapV2Pool.get_amount_out poolW2 100 2000 1000) ∧
    UniswapV3Pool.simulate_swap primsW poolW3 777 1 3 =
      UniswapV3Pool.swapCore primsW poolW3 false 1 3 := by
  have h1 := token_in_not_validated.1 poolW2
    { reserve0 := 1000, reserve1 := 2000, block := 7 } 777 100 (by rfl) (by decide)
  have h2 := token_in_not_validated.2 primsW poolW3 777 1 3 (by decide)
  exact ⟨h1.1, h2.1⟩

/-- C7: `estimate_fees_usd` equals
`fee_tier_rate(fee) * volume_usd * liquidity_delta / (liquidity + liquidity_delta)`;
`fee_tier_rate` maps 100/500/3000/10000 to 0.0001/0.0005/0.003/0.01 and any
other tier is a fail-fast panic (`none`); with `liquidity_delta = liquidity ≠ 0`
the result is exactly half of `fee_tier_rate * volume_usd`. -/
theorem estimate_fees_usd_spec :
    (∀ (liquidity_delta liquidity : Nat) (volume_usd : ℚ) (fee : Nat) (r : ℚ),
      fee_tier_rate fee = some r → liquidity + liquidity_delta ≠ 0 →
      estimate_fees_usd liquidity_delta liquidity volume_usd fee =
        some (r * volume_usd *
          ((liquidity_delta : ℚ) / ((liquidity : ℚ) + (liquidity_delta : ℚ))))) ∧
    (fee_tier_rate 100 = some (1 / 10000) ∧ fee_tier_rate 500 = some (5 / 10000) ∧
      fee_tier_rate 3000 = some (3 / 1000) ∧ fee_tier_rate 10000 = some (1 / 100) ∧
      ∀ fee, fee ≠ 100 → fee ≠ 500 → fee ≠ 3000 → fee ≠ 10000 →
        fee_tier_rate fee = none) ∧
    (∀ (d l : Nat) (v : ℚ) (fee : Nat), fee_tier_rate fee = none →
      estimate_fees_usd d l v fee = none) ∧
    (∀ (liquidity : Nat) (volume_usd : ℚ) (fee : Nat) (r : ℚ), liquidity ≠ 0 →
      fee_tier_rate fee = some r →
      estimate_fees_usd liquidity liquidity volume_usd fee =
        some (r * volume_usd / 2)) := by
  refine ⟨?_, ⟨by norm_num [fee_tier_rate], by norm_num [fee_tier_rate],
    by norm_num [fee_tier_rate], by norm_num [fee_tier_rate], ?_⟩, ?_, ?_⟩
  · intro d l v fee r hr hne
    simp only [estimate_fees_usd, hr, if_neg hne]
    congr 1
    ring
  · intro fee h1 h2 h3 h4
    simp [fee_tier_rate, h1, h2, h3, h4]
  · intro d l v fee hr
    simp [estimate_fees_usd, hr]
  · intro l v fee r hl hr
    have hne : l + l ≠ 0 := by omega
    simp only [estimate_fees_usd, hr, if_neg hne]
    have hl2 : (l : ℚ) ≠ 0 := Nat.cast_ne_zero.2 hl
    congr 1
    field_simp
    ring

/-- C7 witness: with `liquidity_delta = liquidity` the estimate is exactly
half of the fee rate times the volume. -/
theorem estimate_fees_usd_spec_witness :
    estimate_fees_usd 4 4 1000 3000 = some ((3 / 1000 : ℚ) * 1000 / 2) ∧
    estimate_fees_usd 5 7 1000 123 = none := by
  constructor
  · exact estimate_fees_usd_spec.2.2.2 4 1000 3000 (3 / 1000) (by norm_num)
      (by norm_num [fee_tier_rate])
  · exact estimate_fees_usd_spec.2.2.1 5 7 1000 123
      (estimate_fees_usd_spec.2.1.2.2.2.2 123 (by norm_num) (by norm_num)
        (by norm_num) (by norm_num))

/-- C4: `div_uu` fails with `divisionByZero` when `y = 0`; for `y ≠ 0`
every successful result fits in 128 bits, the function returns `Ok 0`
(saturation) when the provisional answer exceeds 128 bits and likewise
when the corrected answer does, and it fails with `roundingError` exactly
when the hi/lo cross-multiplication check disagrees with the expected
high component. -/
theorem div_uu_control (x y : Nat) :
    (y = 0 → div_uu x y = .error .divisionByZero) ∧
    (y ≠ 0 →
      (∀ a, div_uu x y = .ok a → a ≤ 2 ^ 128 - 1) ∧
      (2 ^ 128 - 1 < divuuAnswer0 x y → div_uu x y = .ok 0) ∧
      (divuuAnswer0 x y ≤ 2 ^ 128 - 1 →
        (div_uu x y = .error .roundingError ↔
          divuuXh2 x y ≠ divuuHi x y >>> 128)) ∧
      (divuuAnswer0 x y ≤ 2 ^ 128 - 1 → divuuXh2 x y = divuuHi x y >>> 128 →
        2 ^ 128 - 1 < divuuAnswer0 x y + divuuXl2 x y / y →
        div_uu x y = .ok 0)) := by
  constructor
  · intro h0
    simp [div_uu, h0]
  · intro hy
    refine ⟨?_, ?_, ?_, ?_⟩
    · intro a ha
      unfold div_uu at ha
      rw [if_pos hy] at ha
      split_ifs at ha with h1 h2 h3 <;> simp_all <;> omega
    · intro h1
      unfold div_uu
      rw [if_pos hy, if_pos h1]
    · intro h1
      unfold div_uu
      rw [if_pos hy, if_neg (by omega)]
      constructor
      · intro h
        by_contra hc
        rw [if_neg (fun hne => hne hc)] at h
        split_ifs at h
      · intro hne
        rw [if_pos hne]
    · intro h1 h2 h3
      unfold div_uu
      rw [if_pos hy, if_neg (by omega), if_neg (by simp [h2]), if_pos h3]

/-- C4 witness: division by zero, and saturation to `Ok 0` for a ratio
that does not fit in 128 bits. -/
theorem div_uu_control_witness :
    div_uu 7 0 = .error .divisionByZero ∧ div_uu (2 ^ 190) 1 = .ok 0 := by
  constructor
  · exact (div_uu_control 7 0).1 rfl
  · exact ((div_uu_control (2 ^ 190) 1).2 (by norm_num)).2.1
      (by norm_num [divuuAnswer0, Nat.shiftLeft_eq])

/-- C1: in the loop body shared by both V3 swap variants (`v3Step`), when
the step's new sqrt-price equals the next tick's sqrt-price and the tick
is reported initialized, its `liquidity_net` is read from the loaded tick
map (0 when absent, via `tickNetOf`), negated when `zero_for_one`, and
applied to the active liquidity; a negative net larger than the active
liquidity aborts with `liquidityUnderflow` (no clamping), and otherwise
the tick advances to `tick_next - 1` when `zero_for_one` and to
`tick_next` otherwise. -/
theorem v3_step_tick_crossing
    (P : V3Prims) (fee : Nat) (tick_bitmap : Int → Option Nat) (tick_spacing : Int)
    (ticks : Int → Option TickInfo) (zero_for_one : Bool) (sqrt_price_limit : Nat)
    (cs : CurrentState) (tb1 tick_next : Int) (spn ain aout famt : Nat) (net : Int)
    (h1 : P.next_initialized_tick_within_one_word tick_bitmap cs.tick tick_spacing
        zero_for_one = .ok (tb1, true))
    (htn : tick_next = max minTick (min maxTick tb1))
    (h2 : P.get_sqrt_ratio_at_tick tick_next = .ok spn)
    (h3 : P.compute_swap_step cs.sqrt_price_x_96
        (if zero_for_one then (if spn < sqrt_price_limit then sqrt_price_limit else spn)
         else (if sqrt_price_limit < spn then sqrt_price_limit else spn))
        cs.liquidity cs.amount_specified_remaining fee = .ok (spn, ain, aout, famt))
    (hnet : net = if zero_for_one then -(tickNetOf ticks tick_next)
                  else tickNetOf ticks tick_next) :
    (net < 0 → cs.liquidity < (-net).toNat →
      v3Step P fee tick_bitmap tick_spacing ticks zero_for_one sqrt_price_limit cs =
        .error .liquidityUnderflow) ∧
    (net < 0 → (-net).toNat ≤ cs.liquidity →
      v3Step P fee tick_bitmap tick_spacing ticks zero_for_one sqrt_price_limit cs =
        .ok { amount_specified_remaining := i256_wrap (cs.amount_specified_remaining -
                i256_from_raw ((ain + famt) % 2 ^ 256)),
              amount_calculated := cs.amount_calculated - i256_from_raw aout,
              sqrt_price_x_96 := spn,
              tick := if zero_for_one then tick_next - 1 else tick_next,
              liquidity := cs.liquidity - (-net).toNat }) ∧
    (0 ≤ net →
      v3Step P fee tick_bitmap tick_spacing ticks zero_for_one sqrt_price_limit cs =
        .ok { amount_specified_remaining := i256_wrap (cs.amount_specified_remaining -
                i256_from_raw ((ain + famt) % 2 ^ 256)),
              amount_calculated := cs.amount_calculated - i256_from_raw aout,
              sqrt_price_x_96 := spn,
              tick := if zero_for_one then tick_next - 1 else tick_next,
              liquidity := cs.liquidity + net.toNat }) := by
  subst htn
  subst hnet
  refine ⟨?_, ?_, ?_⟩
  · intro hneg hlt
    simp only [v3Step, h1, h2, h3, eq_self_iff_true, if_true]
    rw [if_pos hneg, if_pos hlt]
  · intro hneg hge
    simp only [v3Step, h1, h2, h3, eq_self_iff_true, if_true]
    rw [if_pos hneg, if_neg (by omega)]
  · intro hpos
    simp only [v3Step, h1, h2, h3, eq_self_iff_true, if_true]
    rw [if_neg (by omega)]

/-- C1 witness: crossing tick `-60` on `ticksW` with `zero_for_one = true`
subtracts the negated `liquidity_net = 3` from the liquidity 10 and moves
the tick to `-61`. -/
theorem v3_step_tick_crossing_witness :
    v3Step primsW 3000 bitmapW 60 ticksW true 1 csW =
      .ok { amount_specified_remaining := 4, amount_calculated := -2,
            sqrt_price_x_96 := 50, tick := -61, liquidity := 7 } := by
  have h := v3_step_tick_crossing primsW 3000 bitmapW 60 ticksW true 1 csW
    (-60) (-60) 50 1 2 0 (-3) rfl (by decide) rfl rfl (by decide)
  exact (h.2.1 (by decide) (by decide)).trans rfl

/-- C9: whenever the mutating V3 swap returns an error (uninitialized
state, a primitive failure or a liquidity underflow mid-loop), the pool is
returned exactly as it was; the final `liquidity`, `sqrt_price` and `tick`
are written back only when the loop runs to completion (or trivially on
the zero-amount early return). -/
theorem v3_mut_atomicity
    (P : V3Prims) (p : UniswapV3Pool) (t a fuel : Nat)
    (res : Except V3Error Nat) (p2 : UniswapV3Pool)
    (h : UniswapV3Pool.simulate_swap_mut P p t a fuel = some (res, p2)) :
    (∀ e, res = .error e → p2 = p) ∧
    (∀ v, res = .ok v →
      (a = 0 ∧ v = 0 ∧ p2 = p) ∨
      ∃ st cs, p.state = some st ∧
        v3SwapLoop P p.fee st.tick_bitmap st.tick_spacing st.ticks
          (decide (t = p.token0.address))
          (if decide (t = p.token0.address) then minSqrtRatio + 1
           else maxSqrtRatio - 1)
          fuel
          { sqrt_price_x_96 := st.sqrt_price, amount_calculated := 0,
            amount_specified_remaining := i256_from_raw a,
            tick := st.tick, liquidity := st.liquidity } = some (.ok cs) ∧
        v = i256_into_raw (-cs.amount_calculated) ∧
        p2 = { p with state := some { st with liquidity := cs.liquidity, sqrt_price := cs.sqrt_price_x_96, tick := cs.tick } }) := by
  simp only [UniswapV3Pool.simulate_swap_mut, UniswapV3Pool.swapMutCore] at h
  split at h
  · simp only [Option.some.injEq, Prod.mk.injEq] at h
    obtain ⟨hres, hp⟩ := h
    subst hres
    subst hp
    exact ⟨fun e _ => rfl, fun v hv => by cases hv⟩
  · rename_i st hst
    by_cases ha : a = 0
    · rw [if_pos ha] at h
      simp only [Option.some.injEq, Prod.mk.injEq] at h
      obtain ⟨hres, hp⟩ := h
      subst hres
      subst hp
      constructor
      · intro e he
        cases he
      · intro v hv
        cases hv
        exact Or.inl ⟨ha, rfl, rfl⟩
    · rw [if_neg ha] at h
      split at h
      · cases h
      · rename_i e hloop
        simp only [Option.some.injEq, Prod.mk.injEq] at h
        obtain ⟨hres, hp⟩ := h
        subst hres
        subst hp
        exact ⟨fun e2 _ => rfl, fun v hv => by cases hv⟩
      · rename_i cs hloop
        simp only [Option.some.injEq, Prod.mk.injEq] at h
        obtain ⟨hres, hp⟩ := h
        subst hres
        subst hp
        constructor
        · intro e2 he
          cases he
        · intro v hv
          cases hv
          exact Or.inr ⟨st, cs, hst, hloop, rfl, rfl⟩

/-- C9 witness: a primitive failure aborts the swap and returns the pool
unchanged. -/
theorem v3_mut_atomicity_witness :
    UniswapV3Pool.simulate_swap_mut primsErr poolW3 10 1 3 =
      some (.error .externalFailure, poolW3) ∧ poolW3 = poolW3 := by
  refine ⟨rfl, ?_⟩
  exact (v3_mut_atomicity primsErr poolW3 10 1 3 (.error .externalFailure) poolW3
    rfl).1 .externalFailure rfl

/-- The accumulation loop, on success, decodes every log and adds the
per-record buy/sell contributions to the starting totals, appending the
records in input order. -/
lemma get_volume_aux_ok (p : UniswapV3Pool) :
    ∀ (logs : List EthLog) (buy sell : Nat) (acc : List SwapData)
      (r : Nat × Nat × List SwapData),
      UniswapV3Pool.get_volume_aux p logs buy sell acc = .ok r →
      ∃ sds, decodeList p logs = .ok sds ∧
        r.2.2 = acc ++ sds ∧
        r.1 = buy + (sds.map (buyContribution p)).sum ∧
        r.2.1 = sell + (sds.map (sellContribution p)).sum := by
  intro logs
  induction logs with
  | nil =>
    intro buy sell acc r h
    simp only [UniswapV3Pool.get_volume_aux, Except.ok.injEq] at h
    subst h
    exact ⟨[], rfl, by simp, by simp, by simp⟩
  | cons lg rest ih =>
    intro buy sell acc r h
    simp only [UniswapV3Pool.get_volume_aux] at h
    split at h
    · cases h
    · rename_i sd hd
      obtain ⟨sds, h1, h2, h3, h4⟩ := ih _ _ _ _ h
      refine ⟨sd :: sds, ?_, ?_, ?_, ?_⟩
      · simp only [decodeList, hd, h1]
      · simp only [h2, List.append_assoc, List.singleton_append]
      · rw [h3]
        simp only [List.map_cons, List.sum_cons, buyContribution]
        split_ifs <;> omega
      · rw [h4]
        simp only [List.map_cons, List.sum_cons, sellContribution]
        split_ifs <;> omega

/-- If decoding the whole list fails, the accumulation loop fails with the
same error. -/
lemma get_volume_aux_error (p : UniswapV3Pool) :
    ∀ (logs : List EthLog) (buy sell : Nat) (acc : List SwapData) (e : DecodeError),
      decodeList p logs = .error e →
      UniswapV3Pool.get_volume_aux p logs buy sell acc = .error e := by
  intro logs
  induction logs with
  | nil =>
    intro buy sell acc e h
    cases h
  | cons lg rest ih =>
    intro buy sell acc e h
    simp only [decodeList] at h
    simp only [UniswapV3Pool.get_volume_aux]
    split at h
    · cases h
      rfl
    · rename_i sd hd
      split at h
      · rename_i e2 herr
        cases h
        exact ih _ _ _ _ herr
      · cases h

/-- A failing log inside the list makes `decodeList` fail with the error of
the first failing log (which is itself a member). -/
lemma decodeList_error_of_mem (p : UniswapV3Pool) :
    ∀ (logs : List EthLog) (lg : EthLog) (e : DecodeError), lg ∈ logs →
      UniswapV3Pool.decode_swap p lg = .error e →
      ∃ e2, decodeList p logs = .error e2 ∧
        ∃ lg2 ∈ logs, UniswapV3Pool.decode_swap p lg2 = .error e2 := by
  intro logs
  induction logs with
  | nil =>
    intro lg e hmem
    cases hmem
  | cons lg1 rest ih =>
    intro lg e hmem hd
    cases hd1 : p.decode_swap lg1 with
    | error e1 =>
      exact ⟨e1, by simp only [decodeList, hd1], lg1, List.mem_cons_self lg1 rest, hd1⟩
    | ok sd =>
      have hmem2 : lg ∈ rest := by
        rcases List.mem_cons.1 hmem with hh | hh
        · exfalso
          rw [hh, hd1] at hd
          cases hd
        · exact hh
      obtain ⟨e2, herr, lg2, hm2, hd2⟩ := ih lg e hmem2 hd
      refine ⟨e2, ?_, lg2, List.mem_cons_of_mem lg1 hm2, hd2⟩
      simp only [decodeList, hd1, herr]

/-- Successful decoding is the per-element decode, in order. -/
lemma decodeList_ok_map (p : UniswapV3Pool) :
    ∀ (logs : List EthLog) (sds : List SwapData), decodeList p logs = .ok sds →
      sds = logs.map (fun lg => (UniswapV3Pool.decode_swap p lg).toOption.getD default) := by
  intro logs
  induction logs with
  | nil =>
    intro sds h
    cases h
    rfl
  | cons lg rest ih =>
    intro sds h
    simp only [decodeList] at h
    split at h
    · cases h
    · rename_i sd hd
      split at h
      · cases h
      · rename_i sds2 hrest
        cases h
        simp only [List.map_cons, hd, Except.toOption, Option.getD_some]
        exact congrArg _ (ih _ hrest)

/-- C6: on a list of logs that all decode, `get_volume_from_logs` returns
the records sorted ascending by block number, with `buy_volume` the sum of
`amount_in` over decoded records whose `token_in` is `token1` and
`sell_volume` the sum of `amount_out` over records whose `token_out` is
`token0`; the totals are invariant under permutation of the input; and if
any single log fails to decode the whole call fails with the error of a
failing log. -/
theorem get_volume_spec (p : UniswapV3Pool) (logs : List EthLog) :
    (∀ pv, UniswapV3Pool.get_volume_from_logs p logs = .ok pv →
      List.Sorted (fun a b : SwapData => a.block ≤ b.block) pv.swaps ∧
      ∃ sds, decodeList p logs = .ok sds ∧
        pv.buy_volume = (sds.map (buyContribution p)).sum ∧
        pv.sell_volume = (sds.map (sellContribution p)).sum ∧
        pv.swaps.Perm sds) ∧
    (∀ (logs2 : List EthLog) (pv pv2 : PoolVolume), logs.Perm logs2 →
      UniswapV3Pool.get_volume_from_logs p logs = .ok pv →
      UniswapV3Pool.get_volume_from_logs p logs2 = .ok pv2 →
      pv2.buy_volume = pv.buy_volume ∧ pv2.sell_volume = pv.sell_volume) ∧
    (∀ lg ∈ logs, ∀ e, UniswapV3Pool.decode_swap p lg = .error e →
      ∃ e2, UniswapV3Pool.get_volume_from_logs p logs = .error e2 ∧
        ∃ lg2 ∈ logs, UniswapV3Pool.decode_swap p lg2 = .error e2) := by
  have hext : ∀ (lgs : List EthLog) (pv : PoolVolume),
      UniswapV3Pool.get_volume_from_logs p lgs = .ok pv →
      ∃ sds, decodeList p lgs = .ok sds ∧
        pv.buy_volume = (sds.map (buyContribution p)).sum ∧
        pv.sell_volume = (sds.map (sellContribution p)).sum ∧
        pv.swaps = sds.insertionSort (fun a b => a.block ≤ b.block) := by
    intro lgs pv h
    unfold UniswapV3Pool.get_volume_from_logs at h
    split at h
    · cases h
    · rename_i r haux
      obtain ⟨sds, h1, h2, h3, h4⟩ := get_volume_aux_ok p lgs 0 0 [] r haux
      cases h
      refine ⟨sds, h1, by simpa using h3, by simpa using h4, ?_⟩
      simp only [h2, List.nil_append]
  haveI instTot : IsTotal SwapData (fun a b => a.block ≤ b.block) :=
    ⟨fun a b => Nat.le_total a.block b.block⟩
  haveI instTrans : IsTrans SwapData (fun a b => a.block ≤ b.block) :=
    ⟨fun _ _ _ hab hbc => le_trans hab hbc⟩
  refine ⟨?_, ?_, ?_⟩
  · intro pv h
    obtain ⟨sds, h1, h2, h3, h4⟩ := hext logs pv h
    refine ⟨?_, sds, h1, h2, h3, ?_⟩
    · rw [h4]
      exact List.sorted_insertionSort _ _
    · rw [h4]
      exact List.perm_insertionSort _ _
  · intro logs2 pv pv2 hperm h1 h2
    obtain ⟨sds, hd1, hb1, hs1, _⟩ := hext logs pv h1
    obtain ⟨sds2, hd2, hb2, hs2, _⟩ := hext logs2 pv2 h2
    have hm1 := decodeList_ok_map p logs sds hd1
    have hm2 := decodeList_ok_map p logs2 sds2 hd2
    have hsp : sds.Perm sds2 := by
      rw [hm1, hm2]
      exact hperm.map _
    constructor
    · rw [hb1, hb2]
      exact ((hsp.map (buyContribution p)).sum_eq).symm
    · rw [hs1, hs2]
      exact ((hsp.map (sellContribution p)).sum_eq).symm
  · intro lg hmem e hd
    obtain ⟨e2, herr, lg2, hm2, hd2⟩ := decodeList_error_of_mem p logs lg e hmem hd
    refine ⟨e2, ?_, lg2, hm2, hd2⟩
    unfold UniswapV3Pool.get_volume_from_logs
    rw [get_volume_aux_error p logs 0 0 [] e2 herr]

/-- C6 witness: two out-of-order logs aggregate into `pvW`, whose record
list is sorted ascending by block. -/
theorem get_volume_spec_witness :
    UniswapV3Pool.get_volume_from_logs poolW3 [lgA, lgB] = .ok pvW ∧
    List.Sorted (fun a b : SwapData => a.block ≤ b.block) pvW.swaps := by
  refine ⟨rfl, ?_⟩
  exact ((get_volume_spec poolW3 [lgA, lgB]).1 pvW rfl).1
